import Mathlib

/-!
Verification of the miner repository core: the `PolicyClaim` Solidity contract
(policy registration, claim submission and processing) and the Fabric
mirror-store simulator with its Ethereum-Fabric bridge.

Modelling conventions:
* `uint256` / `address` / `bytes32` values are `Nat`; callers of the external
  functions pass values inside their machine ranges, and range hypotheses
  appear explicitly where a theorem needs them.
* Solidity `mapping`s are association lists with overwrite-insert; a missing
  key reads as the all-zero default record, exactly as in the EVM.
* `keccak256` is an abstract digest parameter `H : List Nat -> Nat`; its
  byte-string argument is modelled concretely by `abi.encodePacked` over the
  typed field list (`encodePacked`).  Collision resistance is idealized as
  injectivity of `H` where a theorem needs it, stated as a hypothesis.
* `revert` (a failing `require`, or a division-by-zero panic) is
  `Except.error` carrying the revert string; reverted calls leave the state
  unchanged, which the `stateAfter...` wrappers make explicit.
-/

/-! ## Association maps (Solidity mappings and JS Map objects) -/

/-- Lookup in an association list, first binding wins. -/
def mapLookup {α β : Type} [DecidableEq α] (m : List (α × β)) (k : α) : Option β :=
  match m with
  | [] => none
  | (k', v) :: rest => if k = k' then some v else mapLookup rest k

/-- Overwrite-insert: replaces the binding in place when the key is present
(as a JS `Map.set` or a Solidity mapping store does), appends otherwise. -/
def mapInsert {α β : Type} [DecidableEq α] (m : List (α × β)) (k : α) (v : β) :
    List (α × β) :=
  match m with
  | [] => [(k, v)]
  | (k', v') :: rest => if k = k' then (k, v) :: rest else (k', v') :: mapInsert rest k v

theorem mapLookup_insert_self {α β : Type} [DecidableEq α]
    (m : List (α × β)) (k : α) (v : β) : mapLookup (mapInsert m k v) k = some v := by
  induction m with
  | nil => simp [mapInsert, mapLookup]
  | cons hd tl ih =>
    by_cases h : k = hd.1
    · simp [mapInsert, mapLookup, h]
    · simpa [mapInsert, mapLookup, h] using ih

theorem mapLookup_insert_ne {α β : Type} [DecidableEq α]
    (m : List (α × β)) (k k' : α) (v : β) (hne : k' ≠ k) :
    mapLookup (mapInsert m k v) k' = mapLookup m k' := by
  induction m with
  | nil => simp [mapInsert, mapLookup, hne]
  | cons hd tl ih =>
    by_cases h : k = hd.1
    · subst h
      simp [mapInsert, mapLookup, hne]
    · by_cases h' : k' = hd.1 <;> simp [mapInsert, mapLookup, h, h', ih]

theorem mapInsert_absorb {α β : Type} [DecidableEq α]
    (m : List (α × β)) (k : α) (v w : β) :
    mapInsert (mapInsert m k v) k w = mapInsert m k w := by
  induction m with
  | nil => simp [mapInsert]
  | cons hd tl ih =>
    by_cases h : k = hd.1 <;> simp [mapInsert, h, ih]

/-! ## Packed ABI encoding (`abi.encodePacked`) and the identifier preimages -/

/-- Big-endian fixed-width byte string of a natural number: `beBytes n v`
is the `n`-byte encoding of `v mod 256 ^ n`, most significant byte first —
the packed encoding of a fixed-width EVM word. -/
def beBytes : Nat → Nat → List Nat
  | 0, _ => []
  | n + 1, v => beBytes n (v / 256) ++ [v % 256]

theorem beBytes_len (n : Nat) : ∀ v, (beBytes n v).length = n := by
  induction n with
  | zero => intro v; simp [beBytes]
  | succ n ih => intro v; simp [beBytes, ih]

theorem beBytes_inj (n : Nat) :
    ∀ v1 v2, v1 < 256 ^ n → v2 < 256 ^ n → beBytes n v1 = beBytes n v2 → v1 = v2 := by
  induction n with
  | zero =>
    intro v1 v2 h1 h2 _
    simp [pow_zero] at h1 h2
    omega
  | succ n ih =>
    intro v1 v2 h1 h2 h
    simp only [beBytes] at h
    obtain ⟨hpre, hlast⟩ := List.append_inj h (by simp [beBytes_len])
    have hb1 : v1 / 256 < 256 ^ n := by
      rw [Nat.div_lt_iff_lt_mul (by norm_num)]
      calc v1 < 256 ^ (n + 1) := h1
        _ = 256 ^ n * 256 := by rw [pow_succ]
    have hb2 : v2 / 256 < 256 ^ n := by
      rw [Nat.div_lt_iff_lt_mul (by norm_num)]
      calc v2 < 256 ^ (n + 1) := h2
        _ = 256 ^ n * 256 := by rw [pow_succ]
    have hd : v1 / 256 = v2 / 256 := ih _ _ hb1 hb2 hpre
    have hm : v1 % 256 = v2 % 256 := by simpa using hlast
    omega

/-- A typed field of an `abi.encodePacked` argument list. -/
inductive ABIValue where
  /-- An `address`, packed to 20 bytes. -/
  | addr (a : Nat)
  /-- A `uint256`, packed to 32 bytes. -/
  | uint (v : Nat)
  /-- A `bytes32`, packed to 32 bytes. -/
  | word (b : Nat)
  /-- A `string`, packed as its raw code units with no length prefix. -/
  | bytes (s : String)
deriving DecidableEq, Repr

/-- The raw code-unit sequence of a string (its packed encoding: no tag,
no length framing). -/
def strBytes (s : String) : List Nat := s.data.map Char.toNat

/-- Packed encoding of one typed field. -/
def encodeValue : ABIValue → List Nat
  | .addr a => beBytes 20 a
  | .uint v => beBytes 32 v
  | .word b => beBytes 32 b
  | .bytes s => strBytes s

/-- `abi.encodePacked`: the plain concatenation of the fields' packed
encodings, with no type tags and no length framing. -/
def encodePacked (vs : List ABIValue) : List Nat := (vs.map encodeValue).flatten

/-- Preimage hashed by `registerPolicy` (source lines 126-136):
`abi.encodePacked(_policyHolder, _insuredAmount, _premium, _startDate,
_endDate, block.timestamp, totalPolicies)`. -/
def policyIdPreimage (holder insuredAmount premium startDate endDate ts ctr : Nat) :
    List Nat :=
  encodePacked [.addr holder, .uint insuredAmount, .uint premium, .uint startDate,
    .uint endDate, .uint ts, .uint ctr]

/-- Preimage hashed by `submitClaim` (source lines 183-192):
`abi.encodePacked(_policyId, msg.sender, _claimAmount, _claimDescription,
block.timestamp, totalClaims)`. -/
def claimIdPreimage (policyId sender claimAmount : Nat) (description : String)
    (ts ctr : Nat) : List Nat :=
  encodePacked [.word policyId, .addr sender, .uint claimAmount,
    .bytes description, .uint ts, .uint ctr]

/-! ## The PolicyClaim contract state -/

/-- The `Policy` struct of the contract. -/
structure Policy where
  policyId : Nat
  policyHolder : Nat
  insuredAmount : Nat
  premium : Nat
  startDate : Nat
  endDate : Nat
  isActive : Bool
  policyHash : String
deriving DecidableEq, Repr

/-- The `ClaimStatus` enum. -/
inductive ClaimStatus where
  | Pending
  | Approved
  | Rejected
deriving DecidableEq, Repr

/-- The `Claim` struct of the contract. -/
structure Claim where
  claimId : Nat
  policyId : Nat
  claimant : Nat
  claimAmount : Nat
  claimDescription : String
  submissionDate : Nat
  status : ClaimStatus
  rejectionReason : String
deriving DecidableEq, Repr

/-- The zero value a Solidity mapping returns for an absent policy key. -/
def defaultPolicy : Policy :=
  { policyId := 0, policyHolder := 0, insuredAmount := 0, premium := 0,
    startDate := 0, endDate := 0, isActive := false, policyHash := "" }

/-- The zero value a Solidity mapping returns for an absent claim key
(the default of the `ClaimStatus` enum is its first member, `Pending`). -/
def defaultClaim : Claim :=
  { claimId := 0, policyId := 0, claimant := 0, claimAmount := 0,
    claimDescription := "", submissionDate := 0, status := ClaimStatus.Pending,
    rejectionReason := "" }

/-- The storage of the `PolicyClaim` contract. -/
structure ContractState where
  insurer : Nat
  totalPolicies : Nat
  totalClaims : Nat
  policies : List (Nat × Policy)
  claims : List (Nat × Claim)
  userPolicies : List (Nat × List Nat)
  userClaims : List (Nat × List Nat)
deriving DecidableEq, Repr

/-- `policies[_policyId]` with Solidity default semantics. -/
def getPolicyRaw (s : ContractState) (pid : Nat) : Policy :=
  (mapLookup s.policies pid).getD defaultPolicy

/-- `claims[_claimId]` with Solidity default semantics. -/
def getClaimRaw (s : ContractState) (cid : Nat) : Claim :=
  (mapLookup s.claims cid).getD defaultClaim

/-- `userPolicies[u].push(x)` / `userClaims[u].push(x)`. -/
def pushTo (m : List (Nat × List Nat)) (u x : Nat) : List (Nat × List Nat) :=
  mapInsert m u ((mapLookup m u).getD [] ++ [x])

/-- `MINIMUM_PREMIUM = 0.01 ether` (in wei). -/
def MINIMUM_PREMIUM : Nat := 10 ^ 16

def maxClaimRatio : Nat := 80

/-! ## ValidationEngine: the three claim-processing predicates
(the local booleans of `processClaim`, source lines 225-232). -/

/-- `policy.isActive && block.timestamp >= policy.startDate &&
block.timestamp <= policy.endDate`. -/
def isPolicyValid (policy : Policy) (now : Nat) : Bool :=
  policy.isActive && decide (policy.startDate ≤ now) && decide (now ≤ policy.endDate)

/-- `claim.claimAmount <= policy.insuredAmount`. -/
def isAmountValid (claim : Claim) (policy : Policy) : Bool :=
  decide (claim.claimAmount ≤ policy.insuredAmount)

/-- `(claim.claimAmount * 100) / policy.insuredAmount <= MAXIMUM_CLAIM_RATIO`,
with EVM integer (floor) division; `maxClaimRatio` is the source constant
MAXIMUM_CLAIM_RATIO = 80.  In the source this expression is uint256
checked arithmetic: the multiplication panics when
`claim.claimAmount * 100 >= 2 ^ 256` and the division panics on a zero
divisor.  `processClaim` models both panics as explicit revert branches and
evaluates this predicate only behind those guards, where the `Nat` value
coincides with the EVM value. -/
def isAmountReasonable (claim : Claim) (policy : Policy) : Bool :=
  decide (claim.claimAmount * 100 / policy.insuredAmount ≤ maxClaimRatio)

/-! ## The contract operations -/

/-- `registerPolicy` (source lines 112-162).  `sender` is `msg.sender`,
`now` is `block.timestamp`, `H` is the keccak256 digest. -/
def registerPolicy (H : List Nat → Nat) (s : ContractState)
    (sender holder insuredAmount premium startDate endDate : Nat)
    (policyHash : String) (now : Nat) : Except String (Nat × ContractState) :=
  if sender = s.insurer then
    if holder = 0 then Except.error "Invalid policy holder address"
    else if insuredAmount = 0 then Except.error "Insured amount must be greater than 0"
    else if premium < MINIMUM_PREMIUM then Except.error "Premium below minimum required"
    else if endDate ≤ startDate then Except.error "End date must be after start date"
    else if endDate ≤ now then Except.error "End date must be in the future"
    else
      let policyId := H (policyIdPreimage holder insuredAmount premium startDate
        endDate now s.totalPolicies)
      let p : Policy :=
        { policyId := policyId, policyHolder := holder,
          insuredAmount := insuredAmount, premium := premium,
          startDate := startDate, endDate := endDate, isActive := true,
          policyHash := policyHash }
      Except.ok (policyId,
        { s with policies := mapInsert s.policies policyId p,
                 userPolicies := pushTo s.userPolicies holder policyId,
                 totalPolicies := s.totalPolicies + 1 })
  else Except.error "Only insurer can perform this action"

/-- `submitClaim` (source lines 171-211).  The `validPolicy` modifier runs
first (existence, then activity), then the body's requires in source order. -/
def submitClaim (H : List Nat → Nat) (s : ContractState)
    (sender policyId claimAmount : Nat) (description : String) (now : Nat) :
    Except String (Nat × ContractState) :=
  let policy := getPolicyRaw s policyId
  if policy.policyId = 0 then Except.error "Policy does not exist"
  else if policy.isActive = false then Except.error "Policy is not active"
  else if sender ≠ policy.policyHolder then
    Except.error "Only policy holder can submit claims"
  else if claimAmount = 0 then Except.error "Claim amount must be greater than 0"
  else if now < policy.startDate then Except.error "Policy has not started yet"
  else if policy.endDate < now then Except.error "Policy has expired"
  else
    let claimId := H (claimIdPreimage policyId sender claimAmount description
      now s.totalClaims)
    let c : Claim :=
      { claimId := claimId, policyId := policyId, claimant := sender,
        claimAmount := claimAmount, claimDescription := description,
        submissionDate := now, status := ClaimStatus.Pending,
        rejectionReason := "" }
    Except.ok (claimId,
      { s with claims := mapInsert s.claims claimId c,
               userClaims := pushTo s.userClaims sender claimId,
               totalClaims := s.totalClaims + 1 })

/-- The rejection reason chain of `processClaim` (source lines 242-248):
first failing condition in the fixed order wins; if none of the three
branches fires (impossible on the rejection path) the stored reason is left
as it was. -/
def rejectReason (policy : Policy) (claim : Claim) (now : Nat) : String :=
  if isPolicyValid policy now = false then "Policy is not valid or has expired"
  else if isAmountValid claim policy = false then "Claim amount exceeds insured amount"
  else if isAmountReasonable claim policy = false then
    "Claim amount exceeds maximum allowed ratio"
  else claim.rejectionReason

/-- `processClaim` (source lines 218-259).  The `validClaim` modifier checks
existence; the body requires `Pending`; evaluating `isAmountReasonable` at
source line 232 is Solidity >= 0.8 checked arithmetic: the multiplication
`claim.claimAmount * 100` panics (reverts) on uint256 overflow, and the
division by `policy.insuredAmount` panics on a zero divisor — both modelled
by explicit revert branches, in evaluation order (the numerator is computed
before the division). -/
def processClaim (s : ContractState) (now cid : Nat) :
    Except String (Bool × ContractState) :=
  let claim := getClaimRaw s cid
  if claim.claimId = 0 then Except.error "Claim does not exist"
  else if claim.status = ClaimStatus.Pending then
    let policy := getPolicyRaw s claim.policyId
    if 2 ^ 256 ≤ claim.claimAmount * 100 then
      Except.error "panic: arithmetic overflow"
    else if policy.insuredAmount = 0 then
      Except.error "panic: division or modulo by zero"
    else
      let approved := isPolicyValid policy now && isAmountValid claim policy &&
        isAmountReasonable claim policy
      if approved then
        let claim' : Claim := { claim with status := ClaimStatus.Approved }
        Except.ok (true, { s with claims := mapInsert s.claims cid claim' })
      else
        let claim' : Claim :=
          { claim with status := ClaimStatus.Rejected,
                       rejectionReason := rejectReason policy claim now }
        Except.ok (false, { s with claims := mapInsert s.claims cid claim' })
  else Except.error "Claim already processed"

/-- `getContractStats` (source lines 314-319): the third component,
`activePolicies`, is the local variable initialized to 0 and returned as is. -/
def getContractStats (s : ContractState) : Nat × Nat × Nat :=
  let activePolicies := 0
  (s.totalPolicies, s.totalClaims, activePolicies)

/-- The number of stored policies whose `isActive` flag is set (what the
stats read-out would have to report to reflect the true state). -/
def activePolicyCount (s : ContractState) : Nat :=
  (s.policies.filter (fun kv => kv.2.isActive)).length

/-! ## Post-state wrappers: the state a call leaves behind, a revert
rolling everything back. -/

/-- State after `processClaim` (the pre-state if the call reverted). -/
def stateAfterProcess (s : ContractState) (now cid : Nat) : ContractState :=
  match processClaim s now cid with
  | .ok r => r.2
  | .error _ => s

/-- State after `submitClaim` (the pre-state if the call reverted). -/
def stateAfterSubmit (H : List Nat → Nat) (s : ContractState)
    (sender policyId claimAmount : Nat) (description : String) (now : Nat) :
    ContractState :=
  match submitClaim H s sender policyId claimAmount description now with
  | .ok r => r.2
  | .error _ => s

/-- The policy id a successful `registerPolicy` returns. -/
def regResult (H : List Nat → Nat) (s : ContractState)
    (sender holder insuredAmount premium startDate endDate : Nat)
    (policyHash : String) (now : Nat) : Option Nat :=
  (registerPolicy H s sender holder insuredAmount premium startDate endDate
    policyHash now).toOption.map Prod.fst

/-- State after `registerPolicy` (the pre-state if the call reverted). -/
def regState (H : List Nat → Nat) (s : ContractState)
    (sender holder insuredAmount premium startDate endDate : Nat)
    (policyHash : String) (now : Nat) : ContractState :=
  match registerPolicy H s sender holder insuredAmount premium startDate endDate
      policyHash now with
  | .ok r => r.2
  | .error _ => s

/-- The approval decision of `processClaim` on the current state:
`isPolicyValid && isAmountValid && isAmountReasonable` over the claim and
its policy. -/
def processApproved (s : ContractState) (now cid : Nat) : Bool :=
  let claim := getClaimRaw s cid
  let policy := getPolicyRaw s claim.policyId
  isPolicyValid policy now && isAmountValid claim policy &&
    isAmountReasonable claim policy

/-- The claim record as stored after a non-reverting `processClaim`. -/
def processedClaim (s : ContractState) (now cid : Nat) : Claim :=
  let claim := getClaimRaw s cid
  let policy := getPolicyRaw s claim.policyId
  if processApproved s now cid then { claim with status := ClaimStatus.Approved }
  else { claim with status := ClaimStatus.Rejected,
                    rejectionReason := rejectReason policy claim now }

/-- Run characterization of `processClaim` on an existing pending claim whose
ratio arithmetic stays in uint256 range (amount * 100 below 2 ^ 256, nonzero
insured amount — true of every claim submitted against a registered policy
once the product fits): it returns the three-way conjunction and stores the
updated claim record. -/
theorem processClaim_run (s : ContractState) (now cid : Nat)
    (hex : (getClaimRaw s cid).claimId ≠ 0)
    (hpend : (getClaimRaw s cid).status = ClaimStatus.Pending)
    (hov : (getClaimRaw s cid).claimAmount * 100 < 2 ^ 256)
    (hins : (getPolicyRaw s (getClaimRaw s cid).policyId).insuredAmount ≠ 0) :
    processClaim s now cid = Except.ok (processApproved s now cid,
      { s with claims := mapInsert s.claims cid (processedClaim s now cid) }) := by
  have hov' : ¬ (2 ^ 256 ≤ (getClaimRaw s cid).claimAmount * 100) := by omega
  simp only [processClaim, processedClaim, processApproved, hex, hpend, hov',
    hins, if_neg, if_pos, if_true, if_false]
  by_cases ha : (isPolicyValid (getPolicyRaw s (getClaimRaw s cid).policyId) now &&
      isAmountValid (getClaimRaw s cid) (getPolicyRaw s (getClaimRaw s cid).policyId) &&
      isAmountReasonable (getClaimRaw s cid)
        (getPolicyRaw s (getClaimRaw s cid).policyId)) = true <;>
    simp [ha]

/-- The post-state of a non-reverting `processClaim`, explicitly. -/
theorem stateAfterProcess_run (s : ContractState) (now cid : Nat)
    (hex : (getClaimRaw s cid).claimId ≠ 0)
    (hpend : (getClaimRaw s cid).status = ClaimStatus.Pending)
    (hov : (getClaimRaw s cid).claimAmount * 100 < 2 ^ 256)
    (hins : (getPolicyRaw s (getClaimRaw s cid).policyId).insuredAmount ≠ 0) :
    stateAfterProcess s now cid =
      { s with claims := mapInsert s.claims cid (processedClaim s now cid) } := by
  unfold stateAfterProcess
  rw [processClaim_run s now cid hex hpend hov hins]

/-! ## Concrete states used by counterexamples and witnesses -/

/-- An active policy with insured amount 21, valid on [0, 1000]. -/
def exPolicy21 : Policy :=
  { policyId := 1, policyHolder := 7, insuredAmount := 21, premium := 10 ^ 16,
    startDate := 0, endDate := 1000, isActive := true, policyHash := "h" }

/-- A pending claim of amount 17 = 21 * 4 / 5 + 1 against `exPolicy21`:
one unit above the 80 percent boundary. -/
def exClaim17 : Claim :=
  { claimId := 2, policyId := 1, claimant := 7, claimAmount := 17,
    claimDescription := "d", submissionDate := 0, status := ClaimStatus.Pending,
    rejectionReason := "" }

/-- An active policy with insured amount 5, valid on [0, 1000]. -/
def exPolicy5 : Policy :=
  { policyId := 3, policyHolder := 7, insuredAmount := 5, premium := 10 ^ 16,
    startDate := 0, endDate := 1000, isActive := true, policyHash := "h" }

/-- A pending claim of amount 6 > 5 against `exPolicy5`. -/
def exClaim6 : Claim :=
  { claimId := 4, policyId := 3, claimant := 7, claimAmount := 6,
    claimDescription := "d", submissionDate := 0, status := ClaimStatus.Pending,
    rejectionReason := "" }

/-- A reachable-shaped ledger state holding both example policies and claims. -/
def exState : ContractState :=
  { insurer := 0, totalPolicies := 2, totalClaims := 2,
    policies := [(1, exPolicy21), (3, exPolicy5)],
    claims := [(2, exClaim17), (4, exClaim6)],
    userPolicies := [(7, [1, 3])], userClaims := [(7, [2, 4])] }

example : (processClaim exState 5 2).toOption.map Prod.fst = some true := by decide
example : (getClaimRaw (stateAfterProcess exState 5 2) 2).status = ClaimStatus.Approved := by decide
example : (processClaim exState 5 4).toOption.map Prod.fst = some false := by decide
example : (getClaimRaw (stateAfterProcess exState 5 4) 4).rejectionReason =
    "Claim amount exceeds insured amount" := by decide
example : exClaim17.claimAmount = exPolicy21.insuredAmount * 4 / 5 + 1 := by decide

/-- C1: for every existing claim with status Pending whose ratio check stays
inside uint256 checked arithmetic — amount * 100 below 2 ^ 256 and a nonzero
insured amount, otherwise the contract reverts with an arithmetic panic at
the eager ratio computation and returns nothing — `processClaim` returns
`approved = isPolicyValid && isAmountValid && isAmountReasonable` — with
`isPolicyValid = policy.isActive && startDate <= now && now <= endDate`,
`isAmountValid = claim.claimAmount <= policy.insuredAmount`,
`isAmountReasonable = claim.claimAmount * 100 / policy.insuredAmount <= 80`
under floor division — and stores status `Approved` exactly when the
conjunction holds, `Rejected` otherwise. -/
theorem processClaim_decision (s : ContractState) (now cid : Nat)
    (hex : (getClaimRaw s cid).claimId ≠ 0)
    (hpend : (getClaimRaw s cid).status = ClaimStatus.Pending)
    (hov : (getClaimRaw s cid).claimAmount * 100 < 2 ^ 256)
    (hins : (getPolicyRaw s (getClaimRaw s cid).policyId).insuredAmount ≠ 0) :
    processClaim s now cid =
      Except.ok (processApproved s now cid, stateAfterProcess s now cid) ∧
    processApproved s now cid =
      (isPolicyValid (getPolicyRaw s (getClaimRaw s cid).policyId) now &&
        isAmountValid (getClaimRaw s cid) (getPolicyRaw s (getClaimRaw s cid).policyId) &&
        isAmountReasonable (getClaimRaw s cid)
          (getPolicyRaw s (getClaimRaw s cid).policyId)) ∧
    (getClaimRaw (stateAfterProcess s now cid) cid).status =
      (if processApproved s now cid = true then ClaimStatus.Approved
       else ClaimStatus.Rejected) := by
  refine ⟨?_, rfl, ?_⟩
  · rw [processClaim_run s now cid hex hpend hov hins,
      stateAfterProcess_run s now cid hex hpend hov hins]
  · rw [stateAfterProcess_run s now cid hex hpend hov hins]
    show ((mapLookup (mapInsert s.claims cid (processedClaim s now cid)) cid).getD
      defaultClaim).status = _
    rw [mapLookup_insert_self]
    unfold processedClaim
    by_cases ha : processApproved s now cid = true <;> simp [ha]

/-- Witness for C1 at the concrete state `exState`, claim 2. -/
theorem processClaim_decision_witness :
    ((getClaimRaw exState 2).claimId ≠ 0 ∧
      (getClaimRaw exState 2).status = ClaimStatus.Pending ∧
      (getClaimRaw exState 2).claimAmount * 100 < 2 ^ 256) ∧
    (getClaimRaw (stateAfterProcess exState 5 2) 2).status =
      (if processApproved exState 5 2 = true then ClaimStatus.Approved
       else ClaimStatus.Rejected) :=
  ⟨⟨by decide, by decide, by decide⟩,
    (processClaim_decision exState 5 2 (by decide) (by decide) (by decide)
      (by decide)).2.2⟩

/-- The stored claim after a non-reverting `processClaim`, read back. -/
theorem getClaimRaw_after (s : ContractState) (now cid : Nat)
    (hex : (getClaimRaw s cid).claimId ≠ 0)
    (hpend : (getClaimRaw s cid).status = ClaimStatus.Pending)
    (hov : (getClaimRaw s cid).claimAmount * 100 < 2 ^ 256)
    (hins : (getPolicyRaw s (getClaimRaw s cid).policyId).insuredAmount ≠ 0) :
    getClaimRaw (stateAfterProcess s now cid) cid = processedClaim s now cid := by
  rw [stateAfterProcess_run s now cid hex hpend hov hins]
  simp [getClaimRaw, mapLookup_insert_self]

/-- C2 counterexample: at insured amount 21 the claim of amount
17 = 21 * 4 / 5 + 1 — one unit above the 80 percent boundary — is APPROVED,
because 17 * 100 / 21 = 80 under floor division, contradicting the claim
that one unit above the boundary is always rejected. -/
theorem boundary_plus_one_approved :
    exClaim17.claimAmount = exPolicy21.insuredAmount * 4 / 5 + 1 ∧
    getPolicyRaw exState (getClaimRaw exState 2).policyId = exPolicy21 ∧
    isPolicyValid exPolicy21 5 = true ∧
    exClaim17.claimAmount * 100 / exPolicy21.insuredAmount = 80 ∧
    (processClaim exState 5 2).toOption.map Prod.fst = some true ∧
    (getClaimRaw (stateAfterProcess exState 5 2) 2).status = ClaimStatus.Approved :=
  ⟨by decide, by decide, by decide, by decide, by decide, by decide⟩

/-- C2 amended: on an existing pending claim over an active in-window policy,
with the ratio arithmetic in uint256 range (amount * 100 below 2 ^ 256 —
above it the contract reverts with an arithmetic panic instead of deciding):
(1) whenever the claim amount is within the insured amount and the floor
ratio is at most 80 the claim is approved; (2) for a claim one unit above
the 80 percent boundary (amount = insuredAmount * 4 / 5 + 1), `processClaim`
rejects it with the ratio-exceeded reason exactly when the floor of
amount * 100 / insuredAmount exceeds 80 — not always: at insuredAmount 21
the floor is exactly 80 and the claim is approved. -/
theorem claimRatio_boundary :
    (∀ (s : ContractState) (now cid : Nat),
      (getClaimRaw s cid).claimId ≠ 0 →
      (getClaimRaw s cid).status = ClaimStatus.Pending →
      (getClaimRaw s cid).claimAmount * 100 < 2 ^ 256 →
      isPolicyValid (getPolicyRaw s (getClaimRaw s cid).policyId) now = true →
      (getPolicyRaw s (getClaimRaw s cid).policyId).insuredAmount ≠ 0 →
      (getClaimRaw s cid).claimAmount ≤
        (getPolicyRaw s (getClaimRaw s cid).policyId).insuredAmount →
      (getClaimRaw s cid).claimAmount * 100 /
        (getPolicyRaw s (getClaimRaw s cid).policyId).insuredAmount ≤ 80 →
      processApproved s now cid = true ∧
        (getClaimRaw (stateAfterProcess s now cid) cid).status =
          ClaimStatus.Approved) ∧
    (∀ (s : ContractState) (now cid : Nat),
      (getClaimRaw s cid).claimId ≠ 0 →
      (getClaimRaw s cid).status = ClaimStatus.Pending →
      (getClaimRaw s cid).claimAmount * 100 < 2 ^ 256 →
      isPolicyValid (getPolicyRaw s (getClaimRaw s cid).policyId) now = true →
      (getPolicyRaw s (getClaimRaw s cid).policyId).insuredAmount ≠ 0 →
      (getClaimRaw s cid).claimAmount =
        (getPolicyRaw s (getClaimRaw s cid).policyId).insuredAmount * 4 / 5 + 1 →
      (((getClaimRaw (stateAfterProcess s now cid) cid).status =
          ClaimStatus.Rejected ∧
        (getClaimRaw (stateAfterProcess s now cid) cid).rejectionReason =
          "Claim amount exceeds maximum allowed ratio") ↔
        80 < (getClaimRaw s cid).claimAmount * 100 /
          (getPolicyRaw s (getClaimRaw s cid).policyId).insuredAmount)) := by
  constructor
  · intro s now cid hex hpend hov hvalid hins hle hratio
    have happ : processApproved s now cid = true := by
      simp only [processApproved, hvalid, isAmountValid, isAmountReasonable,
        maxClaimRatio, Bool.true_and, Bool.and_eq_true, decide_eq_true_eq]
      exact ⟨hle, hratio⟩
    refine ⟨happ, ?_⟩
    rw [getClaimRaw_after s now cid hex hpend hov hins]
    simp [processedClaim, happ]
  · intro s now cid hex hpend hov hvalid hins hamt
    have hle : (getClaimRaw s cid).claimAmount ≤
        (getPolicyRaw s (getClaimRaw s cid).policyId).insuredAmount := by
      have h5 : (getPolicyRaw s (getClaimRaw s cid).policyId).insuredAmount * 4 / 5 <
          (getPolicyRaw s (getClaimRaw s cid).policyId).insuredAmount := by
        rw [Nat.div_lt_iff_lt_mul (by norm_num)]
        omega
      omega
    rw [getClaimRaw_after s now cid hex hpend hov hins]
    by_cases hr : 80 < (getClaimRaw s cid).claimAmount * 100 /
        (getPolicyRaw s (getClaimRaw s cid).policyId).insuredAmount
    · have hnr : isAmountReasonable (getClaimRaw s cid)
          (getPolicyRaw s (getClaimRaw s cid).policyId) = false := by
        simp only [isAmountReasonable, maxClaimRatio, decide_eq_false_iff_not]
        omega
      have happ : processApproved s now cid = false := by
        simp [processApproved, hnr]
      constructor
      · intro _
        exact hr
      · intro _
        refine ⟨?_, ?_⟩ <;>
          simp [processedClaim, happ, rejectReason, hvalid, isAmountValid, hle, hnr]
    · have hra : isAmountReasonable (getClaimRaw s cid)
          (getPolicyRaw s (getClaimRaw s cid).policyId) = true := by
        simp only [isAmountReasonable, maxClaimRatio, decide_eq_true_eq]
        omega
      have happ : processApproved s now cid = true := by
        simp only [processApproved, hvalid, isAmountValid, hra,
          Bool.true_and, Bool.and_true, decide_eq_true_eq]
        exact hle
      constructor
      · intro hrej
        exfalso
        have := hrej.1
        simp [processedClaim, happ] at this
      · intro h80
        exact absurd h80 hr

/-- Witness for the amended C2 at `exState`: claim 2 (amount 17, insured 21)
is one unit above the boundary yet has floor ratio exactly 80, so part (1)
approves it and the iff of part (2) holds with a false right-hand side. -/
theorem claimRatio_boundary_witness :
    (exClaim17.claimAmount = exPolicy21.insuredAmount * 4 / 5 + 1) ∧
    (processApproved exState 5 2 = true ∧
      (getClaimRaw (stateAfterProcess exState 5 2) 2).status =
        ClaimStatus.Approved) ∧
    (((getClaimRaw (stateAfterProcess exState 5 2) 2).status =
        ClaimStatus.Rejected ∧
      (getClaimRaw (stateAfterProcess exState 5 2) 2).rejectionReason =
        "Claim amount exceeds maximum allowed ratio") ↔
      80 < (getClaimRaw exState 2).claimAmount * 100 /
        (getPolicyRaw exState (getClaimRaw exState 2).policyId).insuredAmount) :=
  ⟨by decide,
    claimRatio_boundary.1 exState 5 2 (by decide) (by decide) (by decide)
      (by decide) (by decide) (by decide) (by decide),
    claimRatio_boundary.2 exState 5 2 (by decide) (by decide) (by decide)
      (by decide) (by decide) (by decide)⟩

/-- C3 counterexample: in the amount-exceeds-insured scenario (amount 6,
insured 5, policy valid) the stored reason is the source string
"Claim amount exceeds insured amount" with a capital C, which is not
exactly the text "claim amount exceeds insured amount" stated by the claim. -/
theorem rejection_reason_text_counterexample :
    isPolicyValid exPolicy5 5 = true ∧
    exPolicy5.insuredAmount < exClaim6.claimAmount ∧
    (getClaimRaw (stateAfterProcess exState 5 4) 4).status = ClaimStatus.Rejected ∧
    (getClaimRaw (stateAfterProcess exState 5 4) 4).rejectionReason =
      "Claim amount exceeds insured amount" ∧
    (getClaimRaw (stateAfterProcess exState 5 4) 4).rejectionReason ≠
      "claim amount exceeds insured amount" :=
  ⟨by decide, by decide, by decide, by decide, by decide⟩

/-- C3 amended: whenever `processClaim` rejects an existing pending claim
with the ratio arithmetic in uint256 range (amount * 100 below 2 ^ 256 and
a nonzero insured amount — outside that range the eagerly computed ratio
panics at source line 232 and the claim stays Pending with no reason), the
stored `rejectionReason` is the first failing condition in the fixed order —
policy validity, then amount validity, then ratio; in particular, for a
pending claim on an active in-window policy with amount exceeding the
insured amount, the reason is exactly "Claim amount exceeds insured amount"
(capital C, as in the source — not the lowercase text of the claim). -/
theorem rejection_reason_first_failing :
    (∀ (s : ContractState) (now cid : Nat),
      (getClaimRaw s cid).claimId ≠ 0 →
      (getClaimRaw s cid).status = ClaimStatus.Pending →
      (getClaimRaw s cid).claimAmount * 100 < 2 ^ 256 →
      (getPolicyRaw s (getClaimRaw s cid).policyId).insuredAmount ≠ 0 →
      processApproved s now cid = false →
      (getClaimRaw (stateAfterProcess s now cid) cid).status =
        ClaimStatus.Rejected ∧
      (getClaimRaw (stateAfterProcess s now cid) cid).rejectionReason =
        (if isPolicyValid (getPolicyRaw s (getClaimRaw s cid).policyId) now = false
         then "Policy is not valid or has expired"
         else if isAmountValid (getClaimRaw s cid)
             (getPolicyRaw s (getClaimRaw s cid).policyId) = false
         then "Claim amount exceeds insured amount"
         else "Claim amount exceeds maximum allowed ratio")) ∧
    (∀ (s : ContractState) (now cid : Nat),
      (getClaimRaw s cid).claimId ≠ 0 →
      (getClaimRaw s cid).status = ClaimStatus.Pending →
      (getClaimRaw s cid).claimAmount * 100 < 2 ^ 256 →
      isPolicyValid (getPolicyRaw s (getClaimRaw s cid).policyId) now = true →
      (getPolicyRaw s (getClaimRaw s cid).policyId).insuredAmount ≠ 0 →
      (getPolicyRaw s (getClaimRaw s cid).policyId).insuredAmount <
        (getClaimRaw s cid).claimAmount →
      (getClaimRaw (stateAfterProcess s now cid) cid).status =
        ClaimStatus.Rejected ∧
      (getClaimRaw (stateAfterProcess s now cid) cid).rejectionReason =
        "Claim amount exceeds insured amount") := by
  constructor
  · intro s now cid hex hpend hov hins happ
    rw [getClaimRaw_after s now cid hex hpend hov hins]
    refine ⟨by simp [processedClaim, happ], ?_⟩
    simp only [processedClaim, happ, Bool.false_eq_true, if_false]
    by_cases h1 : isPolicyValid (getPolicyRaw s (getClaimRaw s cid).policyId) now = false
    · simp [rejectReason, h1]
    · by_cases h2 : isAmountValid (getClaimRaw s cid)
          (getPolicyRaw s (getClaimRaw s cid).policyId) = false
      · simp [rejectReason, h1, h2]
      · by_cases h3 : isAmountReasonable (getClaimRaw s cid)
            (getPolicyRaw s (getClaimRaw s cid).policyId) = false
        · simp [rejectReason, h1, h2, h3]
        · exfalso
          simp only [Bool.not_eq_false] at h1 h2 h3
          simp [processApproved, h1, h2, h3] at happ
  · intro s now cid hex hpend hov hvalid hins hgt
    have hnv : isAmountValid (getClaimRaw s cid)
        (getPolicyRaw s (getClaimRaw s cid).policyId) = false := by
      simp only [isAmountValid, decide_eq_false_iff_not]
      omega
    have happ : processApproved s now cid = false := by
      simp [processApproved, hnv]
    rw [getClaimRaw_after s now cid hex hpend hov hins]
    refine ⟨by simp [processedClaim, happ], ?_⟩
    simp [processedClaim, happ, rejectReason, hvalid, hnv]

/-- Witness for the amended C3 at `exState`, claim 4 (amount 6, insured 5). -/
theorem rejection_reason_first_failing_witness :
    (isPolicyValid (getPolicyRaw exState (getClaimRaw exState 4).policyId) 5 = true ∧
      (getPolicyRaw exState (getClaimRaw exState 4).policyId).insuredAmount <
        (getClaimRaw exState 4).claimAmount) ∧
    ((getClaimRaw (stateAfterProcess exState 5 4) 4).status =
        ClaimStatus.Rejected ∧
      (getClaimRaw (stateAfterProcess exState 5 4) 4).rejectionReason =
        "Claim amount exceeds insured amount") :=
  ⟨⟨by decide, by decide⟩,
    rejection_reason_first_failing.2 exState 5 4 (by decide) (by decide)
      (by decide) (by decide) (by decide) (by decide)⟩

/-- C4: a claim's status transitions at most once out of Pending: after any
non-reverting `processClaim`, a second `processClaim` on the same claim
reverts with "Claim already processed" and — revert semantics — leaves the
whole state, hence every claim field including status and rejectionReason,
exactly as it was. -/
theorem processClaim_at_most_once (s : ContractState) (now1 now2 cid : Nat)
    (b : Bool) (s' : ContractState)
    (h1 : processClaim s now1 cid = Except.ok (b, s')) :
    processClaim s' now2 cid = Except.error "Claim already processed" ∧
    stateAfterProcess s' now2 cid = s' := by
  by_cases hex : (getClaimRaw s cid).claimId = 0
  · rw [processClaim] at h1
    simp [hex] at h1
  by_cases hpend : (getClaimRaw s cid).status = ClaimStatus.Pending
  case neg =>
    rw [processClaim] at h1
    simp [hex, hpend] at h1
  by_cases hov : 2 ^ 256 ≤ (getClaimRaw s cid).claimAmount * 100
  · rw [processClaim] at h1
    simp [hex, hpend, hov, -Nat.reducePow] at h1
  by_cases hins : (getPolicyRaw s (getClaimRaw s cid).policyId).insuredAmount = 0
  · rw [processClaim] at h1
    simp [hex, hpend, hov, hins, -Nat.reducePow] at h1
  rw [processClaim_run s now1 cid hex hpend (by omega) hins] at h1
  simp only [Except.ok.injEq, Prod.mk.injEq] at h1
  obtain ⟨-, hs'⟩ := h1
  have hget : getClaimRaw s' cid = processedClaim s now1 cid := by
    rw [← hs']
    simp [getClaimRaw, mapLookup_insert_self]
  have hid : (getClaimRaw s' cid).claimId ≠ 0 := by
    rw [hget]
    unfold processedClaim
    by_cases ha : processApproved s now1 cid = true <;> simp [ha, hex]
  have hst : ¬ (getClaimRaw s' cid).status = ClaimStatus.Pending := by
    rw [hget]
    unfold processedClaim
    by_cases ha : processApproved s now1 cid = true <;> simp [ha]
  have herr : processClaim s' now2 cid = Except.error "Claim already processed" := by
    rw [processClaim]
    simp [hid, hst]
  exact ⟨herr, by simp [stateAfterProcess, herr]⟩

/-- Witness for C4: claim 2 of `exState` is approved by the first call and
the second call fails, changing nothing. -/
theorem processClaim_at_most_once_witness :
    processClaim exState 5 2 = Except.ok (true, stateAfterProcess exState 5 2) ∧
    (processClaim (stateAfterProcess exState 5 2) 6 2 =
        Except.error "Claim already processed" ∧
      stateAfterProcess (stateAfterProcess exState 5 2) 6 2 =
        stateAfterProcess exState 5 2) :=
  ⟨by rfl,
    processClaim_at_most_once exState 5 6 2 true (stateAfterProcess exState 5 2)
      (by rfl)⟩

theorem drop_len_append {α : Type} (l1 l2 : List α) :
    (l1 ++ l2).drop l1.length = l2 := by
  simp

/-- The `registerPolicy` preimage is a fixed 180-byte prefix followed by the
32-byte counter field. -/
theorem policyIdPreimage_split (holder i p sd ed ts c : Nat) :
    policyIdPreimage holder i p sd ed ts c =
      (beBytes 20 holder ++ beBytes 32 i ++ beBytes 32 p ++ beBytes 32 sd ++
        beBytes 32 ed ++ beBytes 32 ts) ++ beBytes 32 c := by
  simp [policyIdPreimage, encodePacked, encodeValue, List.append_assoc]

/-- Equal `registerPolicy` preimages have equal counter fields (for counters
inside the uint256 range). -/
theorem policyIdPreimage_ctr (h1 i1 p1 sd1 ed1 ts1 c1 h2 i2 p2 sd2 ed2 ts2 c2 : Nat)
    (hb1 : c1 < 2 ^ 256) (hb2 : c2 < 2 ^ 256)
    (heq : policyIdPreimage h1 i1 p1 sd1 ed1 ts1 c1 =
      policyIdPreimage h2 i2 p2 sd2 ed2 ts2 c2) : c1 = c2 := by
  rw [policyIdPreimage_split, policyIdPreimage_split] at heq
  have hlen1 : (beBytes 20 h1 ++ beBytes 32 i1 ++ beBytes 32 p1 ++ beBytes 32 sd1 ++
      beBytes 32 ed1 ++ beBytes 32 ts1).length = 180 := by simp [beBytes_len]
  have hlen2 : (beBytes 20 h2 ++ beBytes 32 i2 ++ beBytes 32 p2 ++ beBytes 32 sd2 ++
      beBytes 32 ed2 ++ beBytes 32 ts2).length = 180 := by simp [beBytes_len]
  have hd := congrArg (List.drop 180) heq
  have e1 : ((beBytes 20 h1 ++ beBytes 32 i1 ++ beBytes 32 p1 ++ beBytes 32 sd1 ++
      beBytes 32 ed1 ++ beBytes 32 ts1) ++ beBytes 32 c1).drop 180 = beBytes 32 c1 := by
    rw [← hlen1]
    exact drop_len_append _ _
  have e2 : ((beBytes 20 h2 ++ beBytes 32 i2 ++ beBytes 32 p2 ++ beBytes 32 sd2 ++
      beBytes 32 ed2 ++ beBytes 32 ts2) ++ beBytes 32 c2).drop 180 = beBytes 32 c2 := by
    rw [← hlen2]
    exact drop_len_append _ _
  rw [e1, e2] at hd
  have h256 : (256 : Nat) ^ 32 = 2 ^ 256 := by decide
  exact beBytes_inj 32 c1 c2 (h256 ▸ hb1) (h256 ▸ hb2) hd

/-- A successful `registerPolicy` returns the digest of the preimage formed
with the pre-increment counter, and increments `totalPolicies`. -/
theorem registerPolicy_ok_shape (H : List Nat → Nat) (s : ContractState)
    (sender holder ia pr sd ed : Nat) (ph : String) (now : Nat)
    (h : (registerPolicy H s sender holder ia pr sd ed ph now).isOk = true) :
    regResult H s sender holder ia pr sd ed ph now =
      some (H (policyIdPreimage holder ia pr sd ed now s.totalPolicies)) ∧
    (regState H s sender holder ia pr sd ed ph now).totalPolicies =
      s.totalPolicies + 1 := by
  unfold regResult regState
  unfold registerPolicy at h ⊢
  split_ifs at h ⊢ <;> simp_all [Except.isOk, Except.toBool, Except.toOption]

/-- An injective, executable stand-in digest for the witness: the standard
pairing encoding of a list of naturals. -/
def encL : List Nat → Nat
  | [] => 0
  | a :: l => Nat.pair a (encL l) + 1

theorem encL_injective : Function.Injective encL := by
  have key : ∀ l1 l2 : List Nat, encL l1 = encL l2 → l1 = l2 := by
    intro l1
    induction l1 with
    | nil =>
      intro l2 h
      cases l2 with
      | nil => rfl
      | cons b m => simp [encL] at h
    | cons a l ih =>
      intro l2 h
      cases l2 with
      | nil => simp [encL] at h
      | cons b m =>
        simp only [encL, Nat.add_right_cancel_iff] at h
        have hp := Nat.pair_eq_pair.mp h
        rw [hp.1, ih m hp.2]
  intro a b h
  exact key a b h

/-- C5: `registerPolicy` derives the id from
`(holder, insuredAmount, premium, startDate, endDate, now, totalPolicies)`
with the pre-increment counter and then increments `totalPolicies`; for a
collision-resistant digest (idealized: injective `H`), two successive
successful registrations — with arbitrary, possibly identical fields and
timestamps — return different ids, because the counter field of the two
preimages differs. -/
theorem registerPolicy_ids_unique (H : List Nat → Nat)
    (hinj : Function.Injective H) (s : ContractState)
    (hctr : s.totalPolicies + 1 < 2 ^ 256)
    (sender1 holder1 ia1 pr1 sd1 ed1 : Nat) (ph1 : String) (now1 : Nat)
    (sender2 holder2 ia2 pr2 sd2 ed2 : Nat) (ph2 : String) (now2 : Nat)
    (h1 : (registerPolicy H s sender1 holder1 ia1 pr1 sd1 ed1 ph1 now1).isOk = true)
    (h2 : (registerPolicy H (regState H s sender1 holder1 ia1 pr1 sd1 ed1 ph1 now1)
      sender2 holder2 ia2 pr2 sd2 ed2 ph2 now2).isOk = true) :
    regResult H s sender1 holder1 ia1 pr1 sd1 ed1 ph1 now1 =
      some (H (policyIdPreimage holder1 ia1 pr1 sd1 ed1 now1 s.totalPolicies)) ∧
    (regState H s sender1 holder1 ia1 pr1 sd1 ed1 ph1 now1).totalPolicies =
      s.totalPolicies + 1 ∧
    regResult H s sender1 holder1 ia1 pr1 sd1 ed1 ph1 now1 ≠
      regResult H (regState H s sender1 holder1 ia1 pr1 sd1 ed1 ph1 now1)
        sender2 holder2 ia2 pr2 sd2 ed2 ph2 now2 := by
  obtain ⟨hr1, ht1⟩ :=
    registerPolicy_ok_shape H s sender1 holder1 ia1 pr1 sd1 ed1 ph1 now1 h1
  obtain ⟨hr2, ht2⟩ :=
    registerPolicy_ok_shape H _ sender2 holder2 ia2 pr2 sd2 ed2 ph2 now2 h2
  refine ⟨hr1, ht1, ?_⟩
  rw [hr1, hr2, ht1]
  intro hcontra
  simp only [Option.some.injEq] at hcontra
  have hpre := hinj hcontra
  have hcc := policyIdPreimage_ctr holder1 ia1 pr1 sd1 ed1 now1 s.totalPolicies
    holder2 ia2 pr2 sd2 ed2 now2 (s.totalPolicies + 1)
    (by omega) (by omega) hpre
  omega

/-- The empty contract deployed by insurer 0, for the C5 witness. -/
def regS0 : ContractState :=
  { insurer := 0, totalPolicies := 0, totalClaims := 0, policies := [],
    claims := [], userPolicies := [], userClaims := [] }

/-- Witness for C5: two registrations with identical fields at the same
instant, under the injective digest `encL`, return distinct ids. -/
theorem registerPolicy_ids_unique_witness :
    (registerPolicy encL regS0 0 7 10 (10 ^ 16) 1 100 "h" 2).isOk = true ∧
    regResult encL regS0 0 7 10 (10 ^ 16) 1 100 "h" 2 ≠
      regResult encL (regState encL regS0 0 7 10 (10 ^ 16) 1 100 "h" 2)
        0 7 10 (10 ^ 16) 1 100 "h" 2 :=
  ⟨by rfl,
    (registerPolicy_ids_unique encL encL_injective regS0 (by decide)
      0 7 10 (10 ^ 16) 1 100 "h" 2 0 7 10 (10 ^ 16) 1 100 "h" 2
      (by rfl) (by rfl)).2.2⟩

theorem char_toNat_injective : Function.Injective Char.toNat := by
  intro a b h
  exact Char.ext (UInt32.ext h)

theorem strBytes_injective : Function.Injective strBytes := by
  intro s1 s2 h
  have hd : s1.data = s2.data := List.map_injective_iff.mpr char_toNat_injective h
  exact congrArg String.mk hd

/-- C6 counterexample: the identifier preimage encoding is
`abi.encodePacked`, plain concatenation with no type or length framing,
so the two distinct string tuples ("ab", "c") and ("a", "bc") — the very
example the claim uses — have identical preimages. -/
theorem encodePacked_no_framing :
    [ABIValue.bytes "ab", ABIValue.bytes "c"] ≠
      [ABIValue.bytes "a", ABIValue.bytes "bc"] ∧
    encodePacked [ABIValue.bytes "ab", ABIValue.bytes "c"] =
      encodePacked [ABIValue.bytes "a", ABIValue.bytes "bc"] :=
  ⟨by decide, by decide⟩

/-- Cancellation of a leading fixed-width field of a packed encoding. -/
theorem beBytes_cancel (n a b : Nat) (t1 t2 : List Nat)
    (ha : a < 256 ^ n) (hb : b < 256 ^ n)
    (h : beBytes n a ++ t1 = beBytes n b ++ t2) : a = b ∧ t1 = t2 := by
  obtain ⟨h1, h2⟩ := List.append_inj h (by simp [beBytes_len])
  exact ⟨beBytes_inj n a b ha hb h1, h2⟩

/-- The `registerPolicy` preimage as a right-nested concatenation. -/
theorem policyIdPreimage_assoc (h i p sd ed ts c : Nat) :
    policyIdPreimage h i p sd ed ts c =
      beBytes 20 h ++ (beBytes 32 i ++ (beBytes 32 p ++ (beBytes 32 sd ++
        (beBytes 32 ed ++ (beBytes 32 ts ++ beBytes 32 c))))) := by
  simp [policyIdPreimage, encodePacked, encodeValue]

/-- The `submitClaim` preimage as a right-nested concatenation. -/
theorem claimIdPreimage_assoc (pid snd amt : Nat) (d : String) (ts c : Nat) :
    claimIdPreimage pid snd amt d ts c =
      beBytes 32 pid ++ (beBytes 20 snd ++ (beBytes 32 amt ++
        (strBytes d ++ (beBytes 32 ts ++ beBytes 32 c)))) := by
  simp [claimIdPreimage, encodePacked, encodeValue]

/-- C6 amended: the derivation does NOT use type/length framing — it is
packed concatenation, and adjacent dynamic strings collide
(`encodePacked_no_framing`).  What does hold is that for the two tuple
shapes the contract actually hashes — `registerPolicy`'s all-fixed-width
tuple and `submitClaim`'s tuple with its single dynamic string at a fixed
position — distinct in-range tuples always produce distinct preimages. -/
theorem preimages_injective_for_used_shapes :
    (∀ h1 i1 p1 sd1 ed1 ts1 c1 h2 i2 p2 sd2 ed2 ts2 c2 : Nat,
      h1 < 2 ^ 160 → h2 < 2 ^ 160 → i1 < 2 ^ 256 → i2 < 2 ^ 256 →
      p1 < 2 ^ 256 → p2 < 2 ^ 256 → sd1 < 2 ^ 256 → sd2 < 2 ^ 256 →
      ed1 < 2 ^ 256 → ed2 < 2 ^ 256 → ts1 < 2 ^ 256 → ts2 < 2 ^ 256 →
      c1 < 2 ^ 256 → c2 < 2 ^ 256 →
      policyIdPreimage h1 i1 p1 sd1 ed1 ts1 c1 =
        policyIdPreimage h2 i2 p2 sd2 ed2 ts2 c2 →
      (h1 = h2 ∧ i1 = i2 ∧ p1 = p2 ∧ sd1 = sd2 ∧ ed1 = ed2 ∧ ts1 = ts2 ∧
        c1 = c2)) ∧
    (∀ (pid1 snd1 amt1 : Nat) (d1 : String) (ts1 c1 : Nat)
      (pid2 snd2 amt2 : Nat) (d2 : String) (ts2 c2 : Nat),
      pid1 < 2 ^ 256 → pid2 < 2 ^ 256 → snd1 < 2 ^ 160 → snd2 < 2 ^ 160 →
      amt1 < 2 ^ 256 → amt2 < 2 ^ 256 → ts1 < 2 ^ 256 → ts2 < 2 ^ 256 →
      c1 < 2 ^ 256 → c2 < 2 ^ 256 →
      claimIdPreimage pid1 snd1 amt1 d1 ts1 c1 =
        claimIdPreimage pid2 snd2 amt2 d2 ts2 c2 →
      (pid1 = pid2 ∧ snd1 = snd2 ∧ amt1 = amt2 ∧ d1 = d2 ∧ ts1 = ts2 ∧
        c1 = c2)) := by
  have h20 : (256 : Nat) ^ 20 = 2 ^ 160 := by decide
  have h32 : (256 : Nat) ^ 32 = 2 ^ 256 := by decide
  constructor
  · intro h1 i1 p1 sd1 ed1 ts1 c1 h2 i2 p2 sd2 ed2 ts2 c2
    intro hh1 hh2 hi1 hi2 hp1 hp2 hsd1 hsd2 hed1 hed2 hts1 hts2 hc1 hc2 heq
    rw [policyIdPreimage_assoc, policyIdPreimage_assoc] at heq
    obtain ⟨e1, heq⟩ := beBytes_cancel 20 _ _ _ _ (h20 ▸ hh1) (h20 ▸ hh2) heq
    obtain ⟨e2, heq⟩ := beBytes_cancel 32 _ _ _ _ (h32 ▸ hi1) (h32 ▸ hi2) heq
    obtain ⟨e3, heq⟩ := beBytes_cancel 32 _ _ _ _ (h32 ▸ hp1) (h32 ▸ hp2) heq
    obtain ⟨e4, heq⟩ := beBytes_cancel 32 _ _ _ _ (h32 ▸ hsd1) (h32 ▸ hsd2) heq
    obtain ⟨e5, heq⟩ := beBytes_cancel 32 _ _ _ _ (h32 ▸ hed1) (h32 ▸ hed2) heq
    obtain ⟨e6, heq⟩ := beBytes_cancel 32 _ _ _ _ (h32 ▸ hts1) (h32 ▸ hts2) heq
    exact ⟨e1, e2, e3, e4, e5, e6,
      beBytes_inj 32 _ _ (h32 ▸ hc1) (h32 ▸ hc2) heq⟩
  · intro pid1 snd1 amt1 d1 ts1 c1 pid2 snd2 amt2 d2 ts2 c2
    intro hpid1 hpid2 hsnd1 hsnd2 hamt1 hamt2 hts1 hts2 hc1 hc2 heq
    rw [claimIdPreimage_assoc, claimIdPreimage_assoc] at heq
    obtain ⟨e1, heq⟩ := beBytes_cancel 32 _ _ _ _ (h32 ▸ hpid1) (h32 ▸ hpid2) heq
    obtain ⟨e2, heq⟩ := beBytes_cancel 20 _ _ _ _ (h20 ▸ hsnd1) (h20 ▸ hsnd2) heq
    obtain ⟨e3, heq⟩ := beBytes_cancel 32 _ _ _ _ (h32 ▸ hamt1) (h32 ▸ hamt2) heq
    obtain ⟨e4, heq⟩ := List.append_inj' heq (by simp [beBytes_len])
    obtain ⟨e5, heq⟩ := beBytes_cancel 32 _ _ _ _ (h32 ▸ hts1) (h32 ▸ hts2) heq
    exact ⟨e1, e2, e3, strBytes_injective e4, e5,
      beBytes_inj 32 _ _ (h32 ▸ hc1) (h32 ▸ hc2) heq⟩

/-- Witness for the amended C6 at a concrete `submitClaim` tuple. -/
theorem preimages_injective_for_used_shapes_witness :
    ((1 : Nat) < 2 ^ 256 ∧ (2 : Nat) < 2 ^ 160) ∧
    ((1 : Nat) = 1 ∧ (2 : Nat) = 2 ∧ (3 : Nat) = 3 ∧ "x" = "x" ∧
      (4 : Nat) = 4 ∧ (5 : Nat) = 5) :=
  ⟨⟨by decide, by decide⟩,
    preimages_injective_for_used_shapes.2 1 2 3 "x" 4 5 1 2 3 "x" 4 5
      (by decide) (by decide) (by decide) (by decide) (by decide) (by decide)
      (by decide) (by decide) (by decide) (by decide) rfl⟩

/-- C7: for an existing active policy, a holder's positive-amount claim
submitted before the policy's start date reverts with
"Policy has not started yet" (PolicyNotYetEffective), and — revert
semantics — no claim record is created, `totalClaims` is unchanged and the
whole ledger state is exactly as before. -/
theorem submitClaim_before_start (H : List Nat → Nat) (s : ContractState)
    (sender pid amt : Nat) (d : String) (now : Nat)
    (hex : (getPolicyRaw s pid).policyId ≠ 0)
    (hact : (getPolicyRaw s pid).isActive = true)
    (hsnd : sender = (getPolicyRaw s pid).policyHolder)
    (hamt : amt ≠ 0)
    (hnow : now < (getPolicyRaw s pid).startDate) :
    submitClaim H s sender pid amt d now =
      Except.error "Policy has not started yet" ∧
    stateAfterSubmit H s sender pid amt d now = s ∧
    (stateAfterSubmit H s sender pid amt d now).totalClaims = s.totalClaims ∧
    (stateAfterSubmit H s sender pid amt d now).claims = s.claims := by
  have herr : submitClaim H s sender pid amt d now =
      Except.error "Policy has not started yet" := by
    rw [submitClaim]
    simp [hex, hact, hsnd, hamt, hnow]
  refine ⟨herr, ?_, ?_, ?_⟩ <;> simp [stateAfterSubmit, herr]

/-- An active policy that starts only at time 50, for the C7 witness. -/
def exPolicyLate : Policy :=
  { policyId := 9, policyHolder := 7, insuredAmount := 100, premium := 10 ^ 16,
    startDate := 50, endDate := 100, isActive := true, policyHash := "h" }

/-- Ledger holding `exPolicyLate`, for the C7 witness. -/
def exStateLate : ContractState :=
  { insurer := 0, totalPolicies := 1, totalClaims := 0,
    policies := [(9, exPolicyLate)], claims := [],
    userPolicies := [(7, [9])], userClaims := [] }

/-- Witness for C7: the holder submits at time 10 < 50 and the call fails
without touching the state. -/
theorem submitClaim_before_start_witness :
    ((getPolicyRaw exStateLate 9).policyId ≠ 0 ∧
      10 < (getPolicyRaw exStateLate 9).startDate) ∧
    (submitClaim (fun _ => 0) exStateLate 7 9 5 "d" 10 =
        Except.error "Policy has not started yet" ∧
      stateAfterSubmit (fun _ => 0) exStateLate 7 9 5 "d" 10 = exStateLate ∧
      (stateAfterSubmit (fun _ => 0) exStateLate 7 9 5 "d" 10).totalClaims =
        exStateLate.totalClaims ∧
      (stateAfterSubmit (fun _ => 0) exStateLate 7 9 5 "d" 10).claims =
        exStateLate.claims) :=
  ⟨⟨by decide, by decide⟩,
    submitClaim_before_start (fun _ => 0) exStateLate 7 9 5 "d" 10
      (by decide) (by decide) (by decide) (by decide) (by decide)⟩

/-- C10: `getContractStats` always reports the active-policy count as 0 —
its third component is a constant — while the first two components are the
true `totalPolicies` and `totalClaims` counters; whenever any stored policy
is actually active, the reported count therefore differs from the true one. -/
theorem getContractStats_active_zero (s : ContractState) :
    getContractStats s = (s.totalPolicies, s.totalClaims, 0) ∧
    (0 < activePolicyCount s →
      (getContractStats s).2.2 ≠ activePolicyCount s) := by
  refine ⟨rfl, ?_⟩
  intro h
  simp only [getContractStats]
  omega

/-- Witness for C10: `exState` stores active policies, yet the stats report
zero. -/
theorem getContractStats_active_zero_witness :
    0 < activePolicyCount exState ∧
    (getContractStats exState).2.2 ≠ activePolicyCount exState :=
  ⟨by decide, (getContractStats_active_zero exState).2 (by decide)⟩

/-! ## The Fabric simulator mirror store and the Ethereum-Fabric bridge -/

/-- A JS value stored in a mirror-record payload. -/
inductive JValue where
  /-- A string. -/
  | str (s : String)
  /-- A millisecond timestamp (or other integer). -/
  | num (n : Nat)
  /-- A boolean. -/
  | jbool (b : Bool)
  /-- The number obtained by `parseFloat` of the raw argument string;
  kept symbolic so no floating-point arithmetic is modelled. -/
  | flo (raw : String)
deriving DecidableEq, Repr

/-- A JS object literal: an ordered key/value map. -/
abbrev JObject := List (String × JValue)

/-- A record in the simulated Fabric ledger
(`{ type, id, data }` as built by the simulator). -/
structure FabricRecord where
  type : String
  id : String
  data : JObject
deriving DecidableEq, Repr

/-- The simulator's in-memory ledger: a JS `Map` keyed by record id. -/
abbrev FabricLedger := List (String × FabricRecord)

/-- Model of `new Date(ms).toISOString()` stored as a payload value: the
rendering determines and is determined by the millisecond timestamp. -/
def isoTime (ms : Nat) : JValue := JValue.num ms

/-- Model of `new Date(ms).toISOString()` as a string argument. -/
def isoDateStr (ms : Nat) : String := "ISO_" ++ toString ms

/-- `createPatientRecord` (fabric-simulator.js lines 225-240) on the
`CreatePatientRecord` chaincode argument shape: stores
`{ type: "PatientRecord", id: patientId, data: { ...payload,
status: "pending", createdAt: now, updatedAt: now } }` under `patientId` —
note `createdAt` is stamped afresh on every call. -/
def createPatientRecord (ledger : FabricLedger)
    (patientId hospitalId insuranceId recordHash diagnosis treatment : String)
    (cost : JValue) (now : Nat) : FabricRecord × FabricLedger :=
  let payload : JObject :=
    [("patientId", .str patientId), ("hospitalId", .str hospitalId),
     ("insuranceId", .str insuranceId), ("recordHash", .str recordHash),
     ("diagnosis", .str diagnosis), ("treatment", .str treatment),
     ("cost", cost)]
  let d := mapInsert (mapInsert (mapInsert payload "status" (.str "pending"))
    "createdAt" (isoTime now)) "updatedAt" (isoTime now)
  let record : FabricRecord := { type := "PatientRecord", id := patientId, data := d }
  (record, mapInsert ledger patientId record)

/-- `createClaimRequest` (fabric-simulator.js lines 242-257), analogous:
keyed by `claimId`, status "submitted", `createdAt` stamped afresh on every
call. -/
def createClaimRequest (ledger : FabricLedger)
    (claimId patientId hospitalId insuranceId description policyId : String)
    (amount : JValue) (now : Nat) : FabricRecord × FabricLedger :=
  let payload : JObject :=
    [("claimId", .str claimId), ("patientId", .str patientId),
     ("hospitalId", .str hospitalId), ("insuranceId", .str insuranceId),
     ("description", .str description), ("policyId", .str policyId),
     ("amount", amount)]
  let d := mapInsert (mapInsert (mapInsert payload "status" (.str "submitted"))
    "createdAt" (isoTime now)) "updatedAt" (isoTime now)
  let record : FabricRecord := { type := "ClaimRequest", id := claimId, data := d }
  (record, mapInsert ledger claimId record)

/-- `verifyPolicyWithEthereum` (fabric-simulator.js lines 274-287): stores
the verification under the composite key
`"VERIFICATION_" ++ policyId ++ "_" ++ patientId`. -/
def verifyPolicyWithEthereum (ledger : FabricLedger)
    (policyId patientId : String) (isValid : Bool)
    (coverageAmount expiryDate : JValue) (ethereumTxHash : String) (now : Nat) :
    FabricRecord × FabricLedger :=
  let d : JObject :=
    [("policyId", .str policyId), ("patientId", .str patientId),
     ("isValid", .jbool isValid), ("coverageAmount", coverageAmount),
     ("expiryDate", expiryDate), ("ethereumTxHash", .str ethereumTxHash)]
  let v : FabricRecord :=
    { type := "PolicyVerification",
      id := "VERIFICATION_" ++ policyId ++ "_" ++ patientId,
      data := mapInsert d "verifiedAt" (isoTime now) }
  (v, mapInsert ledger v.id v)

/-- The bridge's apply step `syncPolicyToFabric` (ethereum-fabric-bridge
lines 128-159) composed with the simulator's `VerifyPolicyWithEthereum`:
at wall-clock time `now` it fabricates `isValid = true`,
`coverageAmount = 10000.00`, `expiryDate = now + 365 days` and
`ethereumTxHash = "ETH_TX_" + now`, then stores the verification record. -/
def syncPolicyToFabric (ledger : FabricLedger) (policyId patientId : String)
    (now : Nat) : FabricLedger :=
  (verifyPolicyWithEthereum ledger policyId patientId true
    (JValue.flo "10000") (JValue.str (isoDateStr (now + 31536000000)))
    ("ETH_TX_" ++ toString now) now).2

/-- Field `f` of the payload of the record stored under key `k`. -/
def recordField (l : FabricLedger) (k f : String) : Option JValue :=
  match mapLookup l k with
  | some r => mapLookup r.data f
  | none => none

/-- Ledger after one patient-record put at time 0. -/
def patientLedger1 : FabricLedger :=
  (createPatientRecord [] "PAT1" "H1" "I1" "R1" "Dg" "Tr" (JValue.flo "150") 0).2

/-- Ledger after a second put of the same patient id at time 1. -/
def patientLedger2 : FabricLedger :=
  (createPatientRecord patientLedger1 "PAT1" "H1" "I1" "R1" "Dg" "Tr"
    (JValue.flo "150") 1).2

/-- C8 counterexample: the id "PAT1" is already present, yet the second put
overwrites `createdAt` with the new write time — the original `createdAt`
is NOT preserved. -/
theorem put_restamps_createdAt_counterexample :
    (mapLookup patientLedger1 "PAT1").isSome = true ∧
    recordField patientLedger1 "PAT1" "createdAt" = some (isoTime 0) ∧
    recordField patientLedger2 "PAT1" "createdAt" = some (isoTime 1) ∧
    recordField patientLedger2 "PAT1" "createdAt" ≠
      recordField patientLedger1 "PAT1" "createdAt" :=
  ⟨by decide, by decide, by decide, by decide⟩

/-- C8 amended: the simulator's put (`createPatientRecord` /
`createClaimRequest`) is insert-or-replace keyed by the record id, but it
stamps BOTH `createdAt` and `updatedAt` afresh on every write — a repeated
put of an existing id overwrites the original `createdAt` with the new
write time.  Other keys are untouched. -/
theorem put_restamps_createdAt :
    (∀ (ledger : FabricLedger) (pid hid iid rh dg tr : String)
      (cost : JValue) (now : Nat),
      recordField (createPatientRecord ledger pid hid iid rh dg tr cost now).2
        pid "createdAt" = some (isoTime now) ∧
      recordField (createPatientRecord ledger pid hid iid rh dg tr cost now).2
        pid "updatedAt" = some (isoTime now) ∧
      (∀ k : String, k ≠ pid →
        mapLookup (createPatientRecord ledger pid hid iid rh dg tr cost now).2 k =
          mapLookup ledger k)) ∧
    (∀ (ledger : FabricLedger) (cid patid hid iid ds plid : String)
      (amount : JValue) (now : Nat),
      recordField (createClaimRequest ledger cid patid hid iid ds plid amount now).2
        cid "createdAt" = some (isoTime now) ∧
      recordField (createClaimRequest ledger cid patid hid iid ds plid amount now).2
        cid "updatedAt" = some (isoTime now) ∧
      (∀ k : String, k ≠ cid →
        mapLookup (createClaimRequest ledger cid patid hid iid ds plid amount now).2 k =
          mapLookup ledger k)) := by
  constructor
  · intro ledger pid hid iid rh dg tr cost now
    refine ⟨?_, ?_, ?_⟩
    · simp only [createPatientRecord, recordField, mapLookup_insert_self]
      rw [mapLookup_insert_ne _ _ _ _ (by decide)]
      exact mapLookup_insert_self _ _ _
    · simp only [createPatientRecord, recordField, mapLookup_insert_self]
    · intro k hk
      simp only [createPatientRecord]
      exact mapLookup_insert_ne _ _ _ _ hk
  · intro ledger cid patid hid iid ds plid amount now
    refine ⟨?_, ?_, ?_⟩
    · simp only [createClaimRequest, recordField, mapLookup_insert_self]
      rw [mapLookup_insert_ne _ _ _ _ (by decide)]
      exact mapLookup_insert_self _ _ _
    · simp only [createClaimRequest, recordField, mapLookup_insert_self]
    · intro k hk
      simp only [createClaimRequest]
      exact mapLookup_insert_ne _ _ _ _ hk

/-- Witness for the amended C8 on the concrete second put. -/
theorem put_restamps_createdAt_witness :
    ("OTHER" ≠ "PAT1") ∧
    recordField patientLedger2 "PAT1" "createdAt" = some (isoTime 1) ∧
    mapLookup patientLedger2 "OTHER" = mapLookup patientLedger1 "OTHER" :=
  ⟨by decide,
    (put_restamps_createdAt.1 patientLedger1 "PAT1" "H1" "I1" "R1" "Dg" "Tr"
      (JValue.flo "150") 1).1,
    (put_restamps_createdAt.1 patientLedger1 "PAT1" "H1" "I1" "R1" "Dg" "Tr"
      (JValue.flo "150") 1).2.2 "OTHER" (by decide)⟩

/-- Ledger after one bridge sync of policy POL1 / patient PAT1 at time 0. -/
def syncLedger1 : FabricLedger := syncPolicyToFabric [] "POL1" "PAT1" 0

/-- Ledger after re-applying the same sync at time 1. -/
def syncLedger2 : FabricLedger := syncPolicyToFabric syncLedger1 "POL1" "PAT1" 1

/-- C9 counterexample: re-applying the same sync event at a later time
changes the stored payload in a field other than `updatedAt` — the
regenerated `ethereumTxHash` (likewise `expiryDate` and `verifiedAt`) — so
the resulting store is not identical to the single-application store. -/
theorem sync_apply_not_idempotent_counterexample :
    ("ethereumTxHash" ≠ "updatedAt") ∧
    recordField syncLedger1 "VERIFICATION_POL1_PAT1" "ethereumTxHash" =
      some (JValue.str "ETH_TX_0") ∧
    recordField syncLedger2 "VERIFICATION_POL1_PAT1" "ethereumTxHash" =
      some (JValue.str "ETH_TX_1") ∧
    recordField syncLedger2 "VERIFICATION_POL1_PAT1" "ethereumTxHash" ≠
      recordField syncLedger1 "VERIFICATION_POL1_PAT1" "ethereumTxHash" ∧
    syncLedger2 ≠ syncLedger1 :=
  ⟨by decide, by decide, by decide, by decide, by decide⟩

/-- C9 amended: the composite key `"VERIFICATION_" + policyId + "_" +
patientId` is stable, so re-applying the sync for the same event fully
overwrites the previous record in place: applying twice equals applying
once at the second time (hence no duplicate records, and applying twice at
the SAME timestamp is literally identical to applying once) — but the
payload of the surviving record carries the second run's `ethereumTxHash`,
`expiryDate` and `verifiedAt`, not merely a refreshed `updatedAt`. -/
theorem sync_apply_absorbs (ledger : FabricLedger) (policyId patientId : String)
    (t1 t2 : Nat) :
    syncPolicyToFabric (syncPolicyToFabric ledger policyId patientId t1)
        policyId patientId t2 =
      syncPolicyToFabric ledger policyId patientId t2 := by
  simp [syncPolicyToFabric, verifyPolicyWithEthereum, mapInsert_absorb]
